import Mathlib

/-!
Verification development for the F5 BIG-IP iControl REST simulator
(`f5_simulator.py`).

The core of the program — identifier resolution (`parse_f5_id`), the
authentication gate (`login`, `authenticate_user_or_token`,
`get_token_info`) and the in-memory resource store with its CRUD
handlers — is embedded shallowly below.

Modelling conventions:
* JSON scalar values are modelled by `JVal`; the only nested objects
  ever stored in a record by the program are single-field
  `\x7b"link": ...\x7d` wrappers, modelled by `JVal.linkObj`.
* Python dicts are modelled by association lists with
  replace-in-place-or-append assignment (`alistSet`), which matches
  dict insertion-order semantics exactly; lookup is `alistGet`.
* The mutable module-level stores (`POOLS`, `POOL_MEMBERS`, `VIRTUALS`,
  `ACTIVE_TOKENS`) are gathered in `F5State`; every handler takes the
  state and returns `(result, newState)`, where `result` is
  `Except ApiErr α` mirroring `HTTPException(status_code, detail)`.
  Mutations performed before a `raise` (the lazy token eviction) are
  reflected in the returned state.
* Clock reads (`time.time()`, `datetime.utcnow()`) become an explicit
  `now : Nat` parameter (microseconds); the random token value of
  `login` becomes an explicit `newTok : String` parameter.
* The HTTP transport, logging and response-envelope boilerplate are out
  of scope; handlers are modelled from the point after the
  authentication dependency has run, and `login`'s return value is
  modelled as its token descriptor object.
-/

/-- A JSON scalar value as it occurs in request bodies and stored
records.  `linkObj s` stands for the one-field object
`\x7b"link": s\x7d` used by `membersReference` and similar fields. -/
inductive JVal where
  | str (s : String)
  | num (n : Int)
  | bool (b : Bool)
  | null
  | linkObj (link : String)
deriving DecidableEq, Repr

/-- A JSON object / Python dict: an association list of fields. -/
abbrev Obj := List (String × JVal)

/-- The payload of a raised `HTTPException`: status code and detail. -/
structure ApiErr where
  status : Nat
  detail : String
deriving DecidableEq, Repr

deriving instance DecidableEq for Except

/-- Association-list lookup (first match), modelling `d.get(k)` /
`k in d` on a Python dict with unique keys. -/
def alistGet {κ α : Type} [DecidableEq κ] : List (κ × α) → κ → Option α
  | [], _ => none
  | (k', v) :: rest, k => if k' = k then some v else alistGet rest k

/-- Association-list assignment, modelling `d[k] = v` on a Python
dict: replace in place if the key is present, else append. -/
def alistSet {κ α : Type} [DecidableEq κ] : List (κ × α) → κ → α → List (κ × α)
  | [], k, v => [(k, v)]
  | (k', v') :: rest, k, v =>
      if k' = k then (k, v) :: rest else (k', v') :: alistSet rest k v

/-- Association-list deletion, modelling `del d[k]` / `d.pop(k, None)`.
A dict holds at most one entry per key, so removing every matching
entry is the same operation on the lists the handlers build. -/
def alistDel {κ α : Type} [DecidableEq κ] : List (κ × α) → κ → List (κ × α)
  | [], _ => []
  | (k', v') :: rest, k =>
      if k' = k then alistDel rest k else (k', v') :: alistDel rest k

/-- Python truthiness of a JSON value (`if not name`, `a or b`). -/
def truthy : JVal → Bool
  | .str s => s ≠ ""
  | .num n => n ≠ 0
  | .bool b => b
  | .null => false
  | .linkObj _ => true

/-- Python `d.get(k)`: the value when present, Python `None` otherwise. -/
def pyGet (o : Obj) (k : String) : JVal := (alistGet o k).getD JVal.null

/-- Python `d.get(k, default)`. -/
def pyGetD (o : Obj) (k : String) (d : JVal) : JVal := (alistGet o k).getD d

/-- Python `a or b`: `a` when truthy, else `b`. -/
def pyOr (a b : JVal) : JVal := if truthy a then a else b

/-- Python `a and b`: `b` when `a` is truthy, else `a`. -/
def pyAnd (a b : JVal) : JVal := if truthy a then b else a

/-- Python `str(v)` as it appears inside f-strings. -/
def fmt : JVal → String
  | .str s => s
  | .num n => toString n
  | .bool b => if b then "True" else "False"
  | .null => "None"
  | .linkObj l => "\x7b\x27link\x27: \x27" ++ l ++ "\x27\x7d"

/-- Python `s.strip(c)` for a single-character strip set: remove all
leading and trailing occurrences of `c`. -/
def stripChar (c : Char) (l : List Char) : List Char :=
  ((l.dropWhile (· = c)).reverse.dropWhile (· = c)).reverse

/-- Python `s.split(c)` for a one-character separator: always returns
at least one (possibly empty) segment. -/
def splitChar (c : Char) : List Char → List (List Char)
  | [] => [[]]
  | a :: as =>
      if a = c then [] :: splitChar c as
      else
        match splitChar c as with
        | [] => [[a]]
        | h :: t => (a :: h) :: t

/-- Source `parse_f5_id`: resolve a raw resource identifier to
`(partition, name)`.  Tilde form is tried first (when the string starts
with `~` and stripping/splitting on `~` yields at least two segments,
the first two are taken); otherwise the slash form (when the string
contains `/` and stripping/splitting on `/` yields at least two
segments, again the first *two* are taken — `parts[0], parts[1]`, any
further segments ignored); otherwise the bare name defaults the
partition to `Common`. -/
def parseF5Id (idRaw : String) : String × String :=
  let l := idRaw.data
  let tildeRes : Option (String × String) :=
    if l.head? = some '~' then
      match splitChar '~' (stripChar '~' l) with
      | p0 :: p1 :: _ => some (String.mk p0, String.mk p1)
      | _ => none
    else none
  match tildeRes with
  | some r => r
  | none =>
    let slashRes : Option (String × String) :=
      if '/' ∈ l then
        match splitChar '/' (stripChar '/' l) with
        | p0 :: p1 :: _ => some (String.mk p0, String.mk p1)
        | _ => none
      else none
    match slashRes with
    | some r => r
    | none => ("Common", idRaw)

/-- The `(partition, name)` store key a handler computes from a path
identifier (partition and name are strings here, so the dict key holds
`JVal.str` components). -/
def keyOf (rid : String) : JVal × JVal :=
  (JVal.str (parseF5Id rid).1, JVal.str (parseF5Id rid).2)

/-- An entry of `ACTIVE_TOKENS`: the dict
`\x7b"username": ..., "expiration": ..., "created": ...\x7d`. -/
structure TokenRec where
  username : JVal
  expiration : Nat
  created : Nat
deriving DecidableEq, Repr

/-- The module-level mutable stores of the simulator. -/
structure F5State where
  pools : List ((JVal × JVal) × Obj)
  poolMembers : List ((JVal × JVal) × List (JVal × Obj))
  virtuals : List ((JVal × JVal) × Obj)
  tokens : List (String × TokenRec)
deriving DecidableEq, Repr

/-- The state at process start: all four stores empty. -/
def initState : F5State := ⟨[], [], [], []⟩

/-- Source `login`: on an exact match of body `username`/`password` against
the configured pair, record a fresh token valid for
`1200 * 1000000` microseconds and return its descriptor; otherwise
raise 401 `Authentication failed`.  An empty (or unparseable) body
raises 400 `empty body` first. -/
def loginHandler (cfgU cfgP : String) (now : Nat) (newTok : String)
    (body : Obj) (s : F5State) : Except ApiErr Obj × F5State :=
  if body = [] then (.error ⟨400, "empty body"⟩, s)
  else
    let username := pyGet body "username"
    let password := pyGet body "password"
    let provider := pyGetD body "loginProviderName" (.str "tmos")
    if username = JVal.str cfgU ∧ password = JVal.str cfgP then
      let expirationMicros := now + 1200 * 1000000
      let descriptor : Obj := [
        ("token", .str newTok),
        ("name", .str newTok),
        ("userName", username),
        ("authProviderName", provider),
        ("timeout", .num 1200),
        ("startTime", .str ""),
        ("address", .str "127.0.0.1"),
        ("partition", .str "[All]"),
        ("generation", .num 1),
        ("lastUpdateMicros", .num now),
        ("expirationMicros", .num expirationMicros),
        ("kind", .str "shared:authz:tokens:authtokenitemstate"),
        ("selfLink", .str ("https://localhost/mgmt/shared/authz/tokens/" ++ newTok))]
      (.ok descriptor,
       { s with tokens := alistSet s.tokens newTok
                  ⟨username, expirationMicros, now⟩ })
    else (.error ⟨401, "Authentication failed"⟩, s)

/-- Source `authenticate_user_or_token`: when an `X-F5-Auth-Token` header is
present, authenticate by token (evicting it first when
`now > expiration`); otherwise fall back to comparing the basic
credentials against the configured pair. -/
def authUserOrToken (cfgU cfgP : String) (now : Nat)
    (authToken : Option String) (basicU basicP : String) (s : F5State) :
    Except ApiErr JVal × F5State :=
  match authToken with
  | some tok =>
    match alistGet s.tokens tok with
    | some info =>
        if now > info.expiration then
          (.error ⟨401, "Token expired"⟩,
           { s with tokens := alistDel s.tokens tok })
        else (.ok info.username, s)
    | none => (.error ⟨401, "Invalid token"⟩, s)
  | none =>
    if basicU = cfgU ∧ basicP = cfgP then (.ok (.str basicU), s)
    else (.error ⟨401, "Invalid credentials"⟩, s)

/-- Source `get_token_info` (`GET /mgmt/shared/authz/tokens/X`): return the
stored descriptor when present and unexpired; evict and report 404
when expired; 404 when absent. -/
def getTokenInfoHandler (now : Nat) (tokenId : String) (s : F5State) :
    Except ApiErr Obj × F5State :=
  match alistGet s.tokens tokenId with
  | some info =>
      if now > info.expiration then
        (.error ⟨404, "Token not found or expired"⟩,
         { s with tokens := alistDel s.tokens tokenId })
      else
        (.ok [
          ("token", .str tokenId),
          ("name", .str tokenId),
          ("userName", info.username),
          ("authProviderName", .str "tmos"),
          ("timeout", .num 1200),
          ("address", .str "127.0.0.1"),
          ("partition", .str "[All]"),
          ("generation", .num 1),
          ("lastUpdateMicros", .num info.created),
          ("expirationMicros", .num info.expiration),
          ("kind", .str "shared:authz:tokens:authtokenitemstate"),
          ("selfLink", .str ("https://localhost/mgmt/shared/authz/tokens/" ++ tokenId))],
         s)
  | none => (.error ⟨404, "Token not found"⟩, s)

/-- The name `create_pool` derives from the body.  The source first
computes `name or fullPath or partition` (a Python `or` chain on the
raw values), then overwrites it with the `name` value when that key is
present, else with the last `/`-segment of `fullPath` when that key is
present.  Calling `.strip` on a non-string `fullPath` raises in the
source (surfaced as a 500), modelled by the `error` branch. -/
def derivePoolName (body : Obj) : Except Unit JVal :=
  if (alistGet body "name").isSome then .ok (pyGet body "name")
  else if (alistGet body "fullPath").isSome then
    match pyGet body "fullPath" with
    | .str fp => .ok (.str (String.mk ((splitChar '/' (stripChar '/' fp.data)).getLastD [])))
    | _ => .error ()
  else .ok (pyOr (pyOr (pyGet body "name") (pyGet body "fullPath")) (pyGet body "partition"))

/-- The partition `create_pool` stores:
`tmPartition or partition or "Common"`.  (The partition computed from
`fullPath` inside the name-derivation branch of the source is dead: it
is unconditionally overwritten by this chain.) -/
def derivePoolPartition (body : Obj) : JVal :=
  pyOr (pyOr (pyGet body "tmPartition") (pyGet body "partition")) (.str "Common")

/-- Source `create_pool` (`POST /mgmt/tm/ltm/pool`): derive name and
partition, 400 when the body is empty or no truthy name results,
otherwise build the canonical pool record, upsert it at
`(partition, name)` and `setdefault` an empty member collection for
the key. -/
def createPoolHandler (body : Obj) (s : F5State) :
    Except ApiErr Obj × F5State :=
  if body = [] then (.error ⟨400, "empty body"⟩, s)
  else
    match derivePoolName body with
    | .error _ => (.error ⟨500, "Internal server error"⟩, s)
    | .ok name =>
      if truthy name = false then (.error ⟨400, "missing name"⟩, s)
      else
        let partition := derivePoolPartition body
        let key := (partition, name)
        let pool : Obj := [
          ("name", name),
          ("tmPartition", partition),
          ("description", pyGetD body "description" (.str "")),
          ("loadBalancingMode",
            pyGetD body "loadBalancingMode" (pyGetD body "lb_method" (.str "round-robin"))),
          ("minUpMembers",
            pyGetD body "minUpMembers" (pyGetD body "min_up_members" (.num 0))),
          ("minUpMembersAction",
            pyGetD body "minUpMembersAction" (pyGetD body "min_up_members_action" (.str "failover"))),
          ("minUpMembersChecking",
            pyGetD body "minUpMembersChecking" (pyGetD body "min_up_members_checking" (.str "disabled"))),
          ("monitor",
            pyOr (pyOr (pyGet body "monitor") (pyGet body "monitor_type"))
              (pyGetD body "monitor_type" (.str "none"))),
          ("membersReference",
            .linkObj ("/mgmt/tm/ltm/pool/~" ++ fmt partition ++ "~" ++ fmt name ++ "/members")),
          ("selfLink", .str ("/mgmt/tm/ltm/pool/~" ++ fmt partition ++ "~" ++ fmt name))]
        (.ok pool,
         { s with
             pools := alistSet s.pools key pool,
             poolMembers :=
               if (alistGet s.poolMembers key).isSome then s.poolMembers
               else alistSet s.poolMembers key [] })

/-- Source `get_pool` (`GET /mgmt/tm/ltm/pool/X`). -/
def getPoolHandler (rid : String) (s : F5State) :
    Except ApiErr Obj × F5State :=
  match alistGet s.pools (keyOf rid) with
  | none => (.error ⟨404, "pool not found"⟩, s)
  | some pool => (.ok pool, s)

/-- The field-name normalization of `update_pool`'s merge loop:
`loadBalancingMode`/`lb_method`, `minUpMembers`/`min_up_members` and
`monitor`/`monitor_type` are written to their canonical targets; any
other key is written through verbatim. -/
def canonPoolField (k : String) : String :=
  if k = "loadBalancingMode" ∨ k = "lb_method" then "loadBalancingMode"
  else if k = "minUpMembers" ∨ k = "min_up_members" then "minUpMembers"
  else if k = "monitor" ∨ k = "monitor_type" then "monitor"
  else k

/-- The merge loop of `update_pool_member` / `update_virtual`:
`for k, v in body: record[k] = v` — a shallow last-write-wins merge
with no normalization. -/
def mergeMember (m : Obj) (patch : Obj) : Obj :=
  patch.foldl (fun acc kv => alistSet acc kv.1 kv.2) m

/-- The merge loop of `update_pool`: like `mergeMember` but each patch
key is first normalized by `canonPoolField`. -/
def mergePool (pool : Obj) (patch : Obj) : Obj :=
  patch.foldl (fun acc kv => alistSet acc (canonPoolField kv.1) kv.2) pool

/-- Source `update_pool` (`PUT`/`PATCH /mgmt/tm/ltm/pool/X`): 404 when the
key is absent, otherwise merge the patch into the stored record
(normalizing the three aliased field names) in place. -/
def updatePoolHandler (rid : String) (body : Obj) (s : F5State) :
    Except ApiErr Obj × F5State :=
  let key := keyOf rid
  match alistGet s.pools key with
  | none => (.error ⟨404, "pool not found"⟩, s)
  | some pool =>
      let pool' := mergePool pool body
      (.ok pool', { s with pools := alistSet s.pools key pool' })

/-- Source `delete_pool` (`DELETE /mgmt/tm/ltm/pool/X`): remove the pool and
`pop` its member collection; 404 when absent. -/
def deletePoolHandler (rid : String) (s : F5State) :
    Except ApiErr Obj × F5State :=
  let key := keyOf rid
  if (alistGet s.pools key).isSome then
    (.ok [("message", .str "deleted")],
     { s with
         pools := alistDel s.pools key,
         poolMembers := alistDel s.poolMembers key })
  else (.error ⟨404, "pool not found"⟩, s)

/-- Source `list_pool_members` (`GET .../pool/X/members`): 404 when the
parent pool key is absent, otherwise the values of its member dict. -/
def listPoolMembersHandler (rid : String) (s : F5State) :
    Except ApiErr (List Obj) × F5State :=
  let key := keyOf rid
  if (alistGet s.pools key).isSome = false then
    (.error ⟨404, "pool not found"⟩, s)
  else (.ok (((alistGet s.poolMembers key).getD []).map Prod.snd), s)

/-- Source `create_pool_member` (`POST .../pool/X/members`): 404 when the
parent pool key is absent (checked before the body), 400 on an empty
body, otherwise derive the member name
(`name or address or "pool:port"`), build the member record and
upsert it into the pool's member dict. -/
def createPoolMemberHandler (rid : String) (body : Obj) (s : F5State) :
    Except ApiErr Obj × F5State :=
  let poolname := (parseF5Id rid).2
  let partition := (parseF5Id rid).1
  let key := keyOf rid
  if (alistGet s.pools key).isSome = false then
    (.error ⟨404, "pool not found"⟩, s)
  else if body = [] then (.error ⟨400, "empty body"⟩, s)
  else
    let memberName := pyOr (pyOr (pyGet body "name") (pyGet body "address"))
      (.str (poolname ++ ":" ++ fmt (pyGetD body "port" (.str "0"))))
    let members := (alistGet s.poolMembers key).getD []
    let member : Obj := [
      ("name", memberName),
      ("address", pyGet body "address"),
      ("port", pyGet body "port"),
      ("description", pyGetD body "description" (.str "")),
      ("session", pyGetD body "session" (.str "user-enabled")),
      ("ratio", pyGetD body "ratio" (.num 1)),
      ("state", pyGetD body "state" (.str "user-up")),
      ("selfLink", .str ("/mgmt/tm/ltm/pool/~" ++ partition ++ "~" ++ poolname
        ++ "/members/~" ++ partition ++ "~" ++ fmt memberName))]
    (.ok member,
     { s with poolMembers :=
         alistSet s.poolMembers key (alistSet members memberName member) })

/-- Source `get_pool_member` (`GET .../members/M`): 404 when the parent pool
key is absent; otherwise look the member up by the name resolved from
the member identifier, falling back to the raw identifier
(`members.get(mname) or members.get(member_id)`); 404 when neither is
present. -/
def getPoolMemberHandler (rid mid : String) (s : F5State) :
    Except ApiErr Obj × F5State :=
  let key := keyOf rid
  let mname := (parseF5Id mid).2
  if (alistGet s.pools key).isSome = false then
    (.error ⟨404, "pool not found"⟩, s)
  else
    let members := (alistGet s.poolMembers key).getD []
    match alistGet members (JVal.str mname) with
    | some mm => (.ok mm, s)
    | none =>
      match alistGet members (JVal.str mid) with
      | some mm => (.ok mm, s)
      | none => (.error ⟨404, "member not found"⟩, s)

/-- Source `update_pool_member` (`PUT`/`PATCH .../members/M`): the parent
pool store is *not* consulted; the member is looked up in the member
collection for the key (defaulting to empty) and 404 `member not
found` is raised when absent, else the patch is shallow-merged into
the member record in place. -/
def updatePoolMemberHandler (rid mid : String) (body : Obj) (s : F5State) :
    Except ApiErr Obj × F5State :=
  let key := keyOf rid
  let mname := (parseF5Id mid).2
  let members := (alistGet s.poolMembers key).getD []
  match alistGet members (JVal.str mname) with
  | none => (.error ⟨404, "member not found"⟩, s)
  | some member =>
      let member' := mergeMember member body
      (.ok member',
       { s with poolMembers :=
           alistSet s.poolMembers key (alistSet members (JVal.str mname) member') })

/-- Source `delete_pool_member` (`DELETE .../members/M`): like the update, no
parent-pool check; 404 `member not found` when the member is absent. -/
def deletePoolMemberHandler (rid mid : String) (s : F5State) :
    Except ApiErr Obj × F5State :=
  let key := keyOf rid
  let mname := (parseF5Id mid).2
  let members := (alistGet s.poolMembers key).getD []
  if (alistGet members (JVal.str mname)).isSome then
    (.ok [("message", .str "deleted")],
     { s with poolMembers :=
         alistSet s.poolMembers key (alistDel members (JVal.str mname)) })
  else (.error ⟨404, "member not found"⟩, s)

/-- Source `create_virtual` (`POST /mgmt/tm/ltm/virtual`): name is
`name or (fullPath and fullPath.split("/")[-1])` (no slash stripping
here, unlike pools); 400 when the body is empty or no truthy name
results; non-string `fullPath` raises in the source (500). -/
def createVirtualHandler (body : Obj) (s : F5State) :
    Except ApiErr Obj × F5State :=
  if body = [] then (.error ⟨400, "empty body"⟩, s)
  else
    let nameRes : Except Unit JVal :=
      if truthy (pyGet body "name") then .ok (pyGet body "name")
      else if truthy (pyGet body "fullPath") then
        match pyGet body "fullPath" with
        | .str fp => .ok (.str (String.mk ((splitChar '/' fp.data).getLastD [])))
        | _ => .error ()
      else .ok (pyAnd (pyGet body "fullPath") (pyGet body "fullPath"))
    match nameRes with
    | .error _ => (.error ⟨500, "Internal server error"⟩, s)
    | .ok name =>
      if truthy name = false then (.error ⟨400, "missing name"⟩, s)
      else
        let partition := pyOr (pyOr (pyGet body "tmPartition") (pyGet body "partition")) (.str "Common")
        let key := (partition, name)
        let virtual : Obj := [
          ("name", name),
          ("tmPartition", partition),
          ("description", pyGetD body "description" (.str "")),
          ("destination", pyGet body "destination"),
          ("pool", pyGet body "pool"),
          ("enabled", pyGetD body "enabled" (.bool true)),
          ("connectionLimit", pyGetD body "connectionLimit" (.num 0)),
          ("selfLink", .str ("/mgmt/tm/ltm/virtual/~" ++ fmt partition ++ "~" ++ fmt name))]
        (.ok virtual, { s with virtuals := alistSet s.virtuals key virtual })

/-- Source `update_virtual` (`PUT`/`PATCH /mgmt/tm/ltm/virtual/X`): 404 when
the key is absent, else shallow merge with no normalization. -/
def updateVirtualHandler (rid : String) (body : Obj) (s : F5State) :
    Except ApiErr Obj × F5State :=
  let key := keyOf rid
  match alistGet s.virtuals key with
  | none => (.error ⟨404, "virtual not found"⟩, s)
  | some v =>
      let v' := mergeMember v body
      (.ok v', { s with virtuals := alistSet s.virtuals key v' })

/-- The last value a patch writes to field `f`
(for relating merge loops to their effect per field). -/
def lookupLast : Obj → String → Option JVal
  | [], _ => none
  | kv :: ps, f =>
      match lookupLast ps f with
      | some v => some v
      | none => if kv.1 = f then some kv.2 else none

/-! ### Shared demonstration bodies and states for concrete runs -/

/-- A login body carrying the default configured credentials. -/
def demoLoginBody : Obj := [("username", JVal.str "admin"), ("password", JVal.str "f5password")]

/-- The state after a successful login at time 0 with token `TOK`. -/
def demoTokState : F5State :=
  (loginHandler "admin" "f5password" 0 "TOK" demoLoginBody initState).2

/-- A minimal pool-creation body. -/
def demoPoolBody : Obj := [("name", JVal.str "p1")]

/-- A pool-member creation body. -/
def demoMemberBody : Obj :=
  [("name", JVal.str "m1"), ("address", JVal.str "1.2.3.4"), ("port", JVal.num 80)]

/-- The pool record `create_pool` stores for `demoPoolBody`. -/
def demoPool : Obj := [
  ("name", JVal.str "p1"),
  ("tmPartition", JVal.str "Common"),
  ("description", JVal.str ""),
  ("loadBalancingMode", JVal.str "round-robin"),
  ("minUpMembers", JVal.num 0),
  ("minUpMembersAction", JVal.str "failover"),
  ("minUpMembersChecking", JVal.str "disabled"),
  ("monitor", JVal.str "none"),
  ("membersReference", JVal.linkObj "/mgmt/tm/ltm/pool/~Common~p1/members"),
  ("selfLink", JVal.str "/mgmt/tm/ltm/pool/~Common~p1")]

/-- The member record `create_pool_member` stores for `demoMemberBody`
under pool `p1`. -/
def demoMember : Obj := [
  ("name", JVal.str "m1"),
  ("address", JVal.str "1.2.3.4"),
  ("port", JVal.num 80),
  ("description", JVal.str ""),
  ("session", JVal.str "user-enabled"),
  ("ratio", JVal.num 1),
  ("state", JVal.str "user-up"),
  ("selfLink", JVal.str "/mgmt/tm/ltm/pool/~Common~p1/members/~Common~m1")]

/-- State after creating pool `p1`. -/
def demoS1 : F5State := (createPoolHandler demoPoolBody initState).2

/-- State after additionally creating member `m1` in pool `p1`. -/
def demoS2 : F5State := (createPoolMemberHandler "p1" demoMemberBody demoS1).2

/-- State after re-creating pool `p1` over the existing key. -/
def demoS3 : F5State := (createPoolHandler demoPoolBody demoS2).2

/-- State after deleting pool `p1` from `demoS2`. -/
def demoSDel : F5State := (deletePoolHandler "p1" demoS2).2

/-- State holding one virtual server `v1`. -/
def demoSV : F5State := (createVirtualHandler [("name", JVal.str "v1")] initState).2

/-- The virtual-server record `create_virtual` stores for the body
naming `v1`. -/
def demoVirtual : Obj := [
  ("name", JVal.str "v1"),
  ("tmPartition", JVal.str "Common"),
  ("description", JVal.str ""),
  ("destination", JVal.null),
  ("pool", JVal.null),
  ("enabled", JVal.bool true),
  ("connectionLimit", JVal.num 0),
  ("selfLink", JVal.str "/mgmt/tm/ltm/virtual/~Common~v1")]

/-! ### Store lemmas -/

theorem alistGet_alistSet {κ α : Type} [DecidableEq κ] (m : List (κ × α)) (k f : κ) (v : α) :
    alistGet (alistSet m k v) f = if f = k then some v else alistGet m f := by
  induction m with
  | nil =>
      by_cases h : f = k
      · subst h; simp [alistGet, alistSet]
      · have h2 : ¬ k = f := fun hh => h hh.symm
        simp [alistGet, alistSet, h, h2]
  | cons kv rest ih =>
      obtain ⟨k', v'⟩ := kv
      by_cases h : k' = k
      · subst h
        by_cases h2 : f = k'
        · subst h2; simp [alistGet, alistSet]
        · have h3 : ¬ k' = f := fun hh => h2 hh.symm
          simp [alistGet, alistSet, h2, h3]
      · by_cases h2 : k' = f
        · subst h2
          simp [alistGet, alistSet, h]
        · simp [alistGet, alistSet, h, h2, ih]

theorem alistGet_alistDel_self {κ α : Type} [DecidableEq κ] (m : List (κ × α)) (k : κ) :
    alistGet (alistDel m k) k = none := by
  induction m with
  | nil => rfl
  | cons kv rest ih =>
      obtain ⟨k', v'⟩ := kv
      by_cases h : k' = k
      · simp [alistDel, h, ih]
      · simp [alistDel, alistGet, h, ih]

theorem alistGet_alistDel_ne {κ α : Type} [DecidableEq κ] (m : List (κ × α)) (k f : κ)
    (hf : f ≠ k) : alistGet (alistDel m k) f = alistGet m f := by
  induction m with
  | nil => rfl
  | cons kv rest ih =>
      obtain ⟨k', v'⟩ := kv
      by_cases h : k' = k
      · subst h
        have h2 : ¬ k' = f := fun hh => hf hh.symm
        simp [alistDel, alistGet, h2, ih]
      · simp [alistDel, alistGet, h, ih]

theorem alistGet_mergeMember (patch : Obj) : ∀ (m : Obj) (f : String),
    alistGet (mergeMember m patch) f =
      match lookupLast patch f with
      | some v => some v
      | none => alistGet m f := by
  induction patch with
  | nil => intro m f; simp [mergeMember, lookupLast]
  | cons kv ps ih =>
      intro m f
      have hstep : mergeMember m (kv :: ps) = mergeMember (alistSet m kv.1 kv.2) ps := by
        simp [mergeMember]
      rw [hstep, ih]
      cases hl : lookupLast ps f with
      | some w => simp [lookupLast, hl]
      | none =>
          simp only [lookupLast, hl]
          rw [alistGet_alistSet]
          by_cases h : f = kv.1
          · subst h; simp
          · have h2 : ¬ kv.1 = f := fun hh => h hh.symm
            simp [h, h2]

theorem mergePool_eq_mergeMember (pool patch : Obj) :
    mergePool pool patch = mergeMember pool (patch.map fun kv => (canonPoolField kv.1, kv.2)) := by
  simp [mergePool, mergeMember, List.foldl_map]

/-! ### String and identifier lemmas -/

theorem strData (s t : String) : (s ++ t).data = s.data ++ t.data := by
  cases s; cases t; rfl

theorem dropWhile_head_ne (c : Char) (l : List Char) (h : l.head? ≠ some c) :
    l.dropWhile (· = c) = l := by
  cases l with
  | nil => rfl
  | cons a as =>
      have ha : ¬ a = c := fun hh => h (by simp [hh])
      simp [List.dropWhile_cons, ha]

theorem head?_ne_of_not_mem (c : Char) (l : List Char) (h : c ∉ l) :
    l.head? ≠ some c := by
  cases l with
  | nil => simp
  | cons a as =>
      intro hh
      have ha : a = c := by simpa using hh
      exact h (ha ▸ List.mem_cons_self a as)

theorem getLast?_ne_of_not_mem (c : Char) (l : List Char) (h : c ∉ l) :
    l.getLast? ≠ some c := by
  intro hl
  have hmem : c ∈ l.getLast? := hl
  obtain ⟨hne, heq⟩ := List.mem_getLast?_eq_getLast hmem
  exact h (heq ▸ List.getLast_mem hne)

theorem stripChar_eq_self (c : Char) (l : List Char)
    (h1 : l.head? ≠ some c) (h2 : l.getLast? ≠ some c) : stripChar c l = l := by
  unfold stripChar
  rw [dropWhile_head_ne c l h1,
      dropWhile_head_ne c l.reverse (by rw [List.head?_reverse]; exact h2),
      List.reverse_reverse]

theorem stripChar_cons_same (c : Char) (l : List Char) :
    stripChar c (c :: l) = stripChar c l := by
  unfold stripChar
  simp [List.dropWhile_cons]

theorem splitChar_not_mem (c : Char) (l : List Char) (h : c ∉ l) :
    splitChar c l = [l] := by
  induction l with
  | nil => rfl
  | cons a as ih =>
      have ha : ¬ a = c := fun hh => h (hh ▸ List.mem_cons_self a as)
      have ih2 := ih (fun hm => h (List.mem_cons_of_mem a hm))
      simp [splitChar, ha, ih2]

theorem splitChar_append (c : Char) (l r : List Char) (h : c ∉ l) :
    splitChar c (l ++ c :: r) = l :: splitChar c r := by
  induction l with
  | nil => simp [splitChar]
  | cons a as ih =>
      have ha : ¬ a = c := fun hh => h (hh ▸ List.mem_cons_self a as)
      have ih2 := ih (fun hm => h (List.mem_cons_of_mem a hm))
      simp [splitChar, ha, ih2]

theorem head?_append_ne (c : Char) (l r : List Char) (hl : l ≠ []) (h : c ∉ l) :
    (l ++ r).head? ≠ some c := by
  obtain ⟨a, as, rfl⟩ := List.exists_cons_of_ne_nil hl
  intro hh
  have ha : a = c := by simpa using hh
  exact h (ha ▸ List.mem_cons_self a as)

theorem getLast?_append_ne (c : Char) (l r : List Char) (hr : r ≠ []) (h : c ∉ r) :
    (l ++ r).getLast? ≠ some c := by
  rw [List.getLast?_append_of_ne_nil l hr]
  exact getLast?_ne_of_not_mem c r h

theorem parseF5Id_tilde (P N : String) (hP : P.data ≠ []) (hN : N.data ≠ [])
    (hPt : '~' ∉ P.data) (hNt : '~' ∉ N.data) :
    parseF5Id ("~" ++ P ++ "~" ++ N) = (P, N) := by
  have hdata : ("~" ++ P ++ "~" ++ N).data = '~' :: (P.data ++ '~' :: N.data) := by
    rw [strData, strData, strData]
    show (((['~'] : List Char) ++ P.data) ++ ['~']) ++ N.data = _
    simp
  have hhead : (P.data ++ '~' :: N.data).head? ≠ some '~' :=
    head?_append_ne '~' P.data _ hP hPt
  have hlast : (P.data ++ '~' :: N.data).getLast? ≠ some '~' := by
    have he : P.data ++ '~' :: N.data = (P.data ++ ['~']) ++ N.data := by simp
    rw [he]
    exact getLast?_append_ne '~' _ N.data hN hNt
  simp only [parseF5Id, hdata]
  rw [stripChar_cons_same, stripChar_eq_self '~' _ hhead hlast,
      splitChar_append '~' P.data N.data hPt, splitChar_not_mem '~' N.data hNt]
  simp

theorem parseF5Id_slash (P N : String) (hP : P.data ≠ []) (hN : N.data ≠ [])
    (hPs : '/' ∉ P.data) (hNs : '/' ∉ N.data) :
    parseF5Id ("/" ++ P ++ "/" ++ N) = (P, N) := by
  have hdata : ("/" ++ P ++ "/" ++ N).data = '/' :: (P.data ++ '/' :: N.data) := by
    rw [strData, strData, strData]
    show (((['/'] : List Char) ++ P.data) ++ ['/']) ++ N.data = _
    simp
  have hhead : (P.data ++ '/' :: N.data).head? ≠ some '/' :=
    head?_append_ne '/' P.data _ hP hPs
  have hlast : (P.data ++ '/' :: N.data).getLast? ≠ some '/' := by
    have he : P.data ++ '/' :: N.data = (P.data ++ ['/']) ++ N.data := by simp
    rw [he]
    exact getLast?_append_ne '/' _ N.data hN hNs
  simp only [parseF5Id, hdata]
  rw [stripChar_cons_same, stripChar_eq_self '/' _ hhead hlast,
      splitChar_append '/' P.data N.data hPs, splitChar_not_mem '/' N.data hNs]
  simp

theorem parseF5Id_middle_slash (P N : String) (hP : P.data ≠ []) (hN : N.data ≠ [])
    (hPt : '~' ∉ P.data) (hPs : '/' ∉ P.data) (hNs : '/' ∉ N.data) :
    parseF5Id (P ++ "/" ++ N) = (P, N) := by
  have hdata : (P ++ "/" ++ N).data = P.data ++ '/' :: N.data := by
    rw [strData, strData]
    simp
  have hhead : (P.data ++ '/' :: N.data).head? ≠ some '~' :=
    head?_append_ne '~' P.data _ hP hPt
  have hheadS : (P.data ++ '/' :: N.data).head? ≠ some '/' :=
    head?_append_ne '/' P.data _ hP hPs
  have hlast : (P.data ++ '/' :: N.data).getLast? ≠ some '/' := by
    have he : P.data ++ '/' :: N.data = (P.data ++ ['/']) ++ N.data := by simp
    rw [he]
    exact getLast?_append_ne '/' _ N.data hN hNs
  have hmem : '/' ∈ P.data ++ '/' :: N.data := by simp
  simp only [parseF5Id, hdata]
  rw [if_neg hhead, if_pos hmem,
      stripChar_eq_self '/' _ hheadS hlast,
      splitChar_append '/' P.data N.data hPs, splitChar_not_mem '/' N.data hNs]

theorem parseF5Id_bare (N : String) (hNt : '~' ∉ N.data) (hNs : '/' ∉ N.data) :
    parseF5Id N = ("Common", N) := by
  have hhead : N.data.head? ≠ some '~' := head?_ne_of_not_mem '~' N.data hNt
  simp only [parseF5Id]
  rw [if_neg hhead, if_neg hNs]

theorem parseF5Id_slash_rule (r : String) (p0 p1 : List Char) (rest : List (List Char))
    (htilde : r.data.head? = some '~' → (splitChar '~' (stripChar '~' r.data)).length < 2)
    (hmem : '/' ∈ r.data)
    (hsplit : splitChar '/' (stripChar '/' r.data) = p0 :: p1 :: rest) :
    parseF5Id r = (String.mk p0, String.mk p1) := by
  have htnone : (if r.data.head? = some '~' then
      match splitChar '~' (stripChar '~' r.data) with
      | q0 :: q1 :: _ => some (String.mk q0, String.mk q1)
      | _ => none
    else none) = (none : Option (String × String)) := by
    by_cases hh : r.data.head? = some '~'
    · rw [if_pos hh]
      have hlen := htilde hh
      cases hsp : splitChar '~' (stripChar '~' r.data) with
      | nil => rfl
      | cons a t =>
          cases t with
          | nil => rfl
          | cons b t2 =>
              rw [hsp] at hlen
              simp only [List.length_cons] at hlen
              omega
    · rw [if_neg hh]
  simp only [parseF5Id]
  rw [htnone, if_pos hmem, hsplit]

theorem parseF5Id_three_segments (A B C : String)
    (hA : A.data ≠ []) (hC : C.data ≠ [])
    (hAs : '/' ∉ A.data) (hBs : '/' ∉ B.data) (hCs : '/' ∉ C.data) :
    parseF5Id ("/" ++ A ++ "/" ++ B ++ "/" ++ C) = (A, B) := by
  have hdata : ("/" ++ A ++ "/" ++ B ++ "/" ++ C).data
      = '/' :: (A.data ++ '/' :: (B.data ++ '/' :: C.data)) := by
    rw [strData, strData, strData, strData, strData]
    show (((((['/'] : List Char) ++ A.data) ++ ['/']) ++ B.data) ++ ['/']) ++ C.data = _
    simp
  have hhead : (A.data ++ '/' :: (B.data ++ '/' :: C.data)).head? ≠ some '/' :=
    head?_append_ne '/' A.data _ hA hAs
  have hlast : (A.data ++ '/' :: (B.data ++ '/' :: C.data)).getLast? ≠ some '/' := by
    have he : A.data ++ '/' :: (B.data ++ '/' :: C.data)
        = (A.data ++ ['/'] ++ B.data ++ ['/']) ++ C.data := by simp
    rw [he]
    exact getLast?_append_ne '/' _ C.data hC hCs
  simp only [parseF5Id, hdata]
  rw [stripChar_cons_same, stripChar_eq_self '/' _ hhead hlast,
      splitChar_append '/' A.data _ hAs, splitChar_append '/' B.data _ hBs,
      splitChar_not_mem '/' C.data hCs]
  simp

theorem data_ne_nil (s : String) (h : s ≠ "") : s.data ≠ [] := by
  intro hd
  apply h
  cases s with
  | mk d => simp_all

/-! ### Claim theorems -/

/-- Claim C3 (amended): for every *nonempty* partition string `P` and every
nonempty name string `N`, each free of the separator characters `~` and
`/`, the identifier resolver maps `~P~N` to `(P, N)`, `/P/N` to `(P, N)`,
`P/N` to `(P, N)` and a bare `N` to `("Common", N)`, tilde form taking
precedence over slash form and slash form over the bare default.  (As
stated, with empty `P` or `N` admitted, the claim fails; see the
counterexample.) -/
theorem identifier_resolver_encodings (P N : String) (hP : P ≠ "") (hN : N ≠ "")
    (hPt : '~' ∉ P.data) (hPs : '/' ∉ P.data) (hNt : '~' ∉ N.data) (hNs : '/' ∉ N.data) :
    parseF5Id ("~" ++ P ++ "~" ++ N) = (P, N) ∧
    parseF5Id ("/" ++ P ++ "/" ++ N) = (P, N) ∧
    parseF5Id (P ++ "/" ++ N) = (P, N) ∧
    parseF5Id N = ("Common", N) :=
  ⟨parseF5Id_tilde P N (data_ne_nil P hP) (data_ne_nil N hN) hPt hNt,
   parseF5Id_slash P N (data_ne_nil P hP) (data_ne_nil N hN) hPs hNs,
   parseF5Id_middle_slash P N (data_ne_nil P hP) (data_ne_nil N hN) hPt hPs hNs,
   parseF5Id_bare N hNt hNs⟩

/-- Claim C3 counterexample: with the empty partition string (which is
trivially free of the separator characters), the encoding `~P~N`
becomes `~~pool1`, which the resolver maps to `("Common", "~~pool1")`
and not to `("", "pool1")` as the claim states. -/
theorem identifier_resolver_empty_partition_cex :
    parseF5Id ("~" ++ "" ++ "~" ++ "pool1") ≠ ("", "pool1") ∧
    parseF5Id ("~" ++ "" ++ "~" ++ "pool1") = ("Common", "~~pool1") ∧
    '~' ∉ ("" : String).data ∧ '/' ∉ ("" : String).data :=
  ⟨by decide, by decide, by decide, by decide⟩

/-- Claim C3 witness: the four encodings at `P = "Part"`, `N = "pool1"`. -/
theorem identifier_resolver_encodings_witness :
    parseF5Id ("~" ++ "Part" ++ "~" ++ "pool1") = ("Part", "pool1") ∧
    parseF5Id ("/" ++ "Part" ++ "/" ++ "pool1") = ("Part", "pool1") ∧
    parseF5Id ("Part" ++ "/" ++ "pool1") = ("Part", "pool1") ∧
    parseF5Id "pool1" = ("Common", "pool1") :=
  identifier_resolver_encodings "Part" "pool1" (by decide) (by decide)
    (by decide) (by decide) (by decide) (by decide)

/-- Claim C4 (amended): for every identifier on which the tilde rule
does not fire and whose slash stripping/splitting yields at least two
segments, the resolver returns the first segment as the partition and
the *second* segment as the name (`parts[0], parts[1]`, any further
segments ignored); in particular an identifier `/A/B/C` with three
segments resolves to `(A, B)`.  (As stated — first and *last* segment,
`/A/B/C` giving `(A, C)` — the claim is false of the code; see the
counterexample.) -/
theorem slash_form_first_and_second_segment :
    (∀ (r : String) (p0 p1 : List Char) (rest : List (List Char)),
      (r.data.head? = some '~' → (splitChar '~' (stripChar '~' r.data)).length < 2) →
      '/' ∈ r.data →
      splitChar '/' (stripChar '/' r.data) = p0 :: p1 :: rest →
      parseF5Id r = (String.mk p0, String.mk p1)) ∧
    (∀ A B C : String, A ≠ "" → C ≠ "" →
      '/' ∉ A.data → '/' ∉ B.data → '/' ∉ C.data →
      parseF5Id ("/" ++ A ++ "/" ++ B ++ "/" ++ C) = (A, B)) := by
  constructor
  · exact parseF5Id_slash_rule
  · intro A B C hA hC hAs hBs hCs
    exact parseF5Id_three_segments A B C (data_ne_nil A hA) (data_ne_nil C hC) hAs hBs hCs

/-- Claim C4 counterexample: on the three-segment identifier `/A/B/C`
the resolver returns `("A", "B")` — `parts[0], parts[1]` — and not the
`("A", "C")` the claim states for the last segment. -/
theorem slash_form_last_segment_cex :
    parseF5Id "/A/B/C" = ("A", "B") ∧ parseF5Id "/A/B/C" ≠ ("A", "C") :=
  ⟨by decide, by decide⟩

/-- Claim C4 witness: the general rule and the three-segment instance
at `/A/B/C`. -/
theorem slash_form_first_and_second_segment_witness :
    parseF5Id "/A/B/C" = (String.mk ['A'], String.mk ['B']) ∧
    parseF5Id ("/" ++ "A" ++ "/" ++ "B" ++ "/" ++ "C") = ("A", "B") :=
  ⟨slash_form_first_and_second_segment.1 "/A/B/C" ['A'] ['B'] [['C']]
      (by decide) (by decide) (by decide),
   slash_form_first_and_second_segment.2 "A" "B" "C" (by decide) (by decide)
      (by decide) (by decide) (by decide)⟩

/-- Claim C8: `update_pool` and `update_pool_member` are shallow merges:
per field, the merged record holds the last value the patch writes to
that field (pool patches writing through `canonPoolField`, so an alias
entry lands in its canonical target), and every field no patch entry
targets keeps exactly its prior value. -/
theorem update_is_shallow_merge :
    (∀ (m patch : Obj) (f : String),
      alistGet (mergeMember m patch) f =
        match lookupLast patch f with
        | some v => some v
        | none => alistGet m f) ∧
    (∀ (pool patch : Obj) (f : String),
      alistGet (mergePool pool patch) f =
        match lookupLast (patch.map fun kv => (canonPoolField kv.1, kv.2)) f with
        | some v => some v
        | none => alistGet pool f) := by
  constructor
  · intro m patch f
    exact alistGet_mergeMember patch m f
  · intro pool patch f
    rw [mergePool_eq_mergeMember]
    exact alistGet_mergeMember _ pool f

/-- Claim C1: login with the configured username/password pair records
exactly one new token whose expiration timestamp is its creation
timestamp plus 1,200,000,000 microseconds (every other token entry and
every other store unchanged); login presenting any other
username/password pair fails 401 `Authentication failed` and leaves
the whole state unchanged. -/
theorem login_token_issue_and_reject (cfgU cfgP : String) (now : Nat) (newTok : String)
    (body : Obj) (s : F5State) (u p : JVal)
    (hu : alistGet body "username" = some u)
    (hp : alistGet body "password" = some p)
    (hfresh : alistGet s.tokens newTok = none) :
    (u = JVal.str cfgU ∧ p = JVal.str cfgP →
      (loginHandler cfgU cfgP now newTok body s).1.isOk = true ∧
      alistGet s.tokens newTok = none ∧
      alistGet (loginHandler cfgU cfgP now newTok body s).2.tokens newTok
        = some ⟨u, now + 1200 * 1000000, now⟩ ∧
      (∀ rec : TokenRec,
        alistGet (loginHandler cfgU cfgP now newTok body s).2.tokens newTok = some rec →
        rec.expiration = rec.created + 1200000000) ∧
      (∀ t, t ≠ newTok →
        alistGet (loginHandler cfgU cfgP now newTok body s).2.tokens t = alistGet s.tokens t) ∧
      (loginHandler cfgU cfgP now newTok body s).2.pools = s.pools ∧
      (loginHandler cfgU cfgP now newTok body s).2.poolMembers = s.poolMembers ∧
      (loginHandler cfgU cfgP now newTok body s).2.virtuals = s.virtuals) ∧
    (¬(u = JVal.str cfgU ∧ p = JVal.str cfgP) →
      loginHandler cfgU cfgP now newTok body s
        = (.error ⟨401, "Authentication failed"⟩, s)) := by
  have hbody : ¬ body = [] := by
    intro h
    rw [h] at hu
    simp [alistGet] at hu
  have hgu : pyGet body "username" = u := by simp [pyGet, hu]
  have hgp : pyGet body "password" = p := by simp [pyGet, hp]
  constructor
  · rintro ⟨h1, h2⟩
    subst h1
    subst h2
    refine ⟨?_, hfresh, ?_, ?_, ?_, ?_, ?_, ?_⟩
    · simp [loginHandler, hbody, hgu, hgp, Except.isOk, Except.toBool]
    · simp [loginHandler, hbody, hgu, hgp, alistGet_alistSet]
    · intro rec hrec
      simp [loginHandler, hbody, hgu, hgp, alistGet_alistSet] at hrec
      rw [← hrec]
    · intro t ht
      simp [loginHandler, hbody, hgu, hgp, alistGet_alistSet, ht]
    · simp [loginHandler, hbody, hgu, hgp]
    · simp [loginHandler, hbody, hgu, hgp]
    · simp [loginHandler, hbody, hgu, hgp]
  · intro hne
    simp [loginHandler, hbody, hgu, hgp, hne]

/-- Claim C1 witness: the configured pair issues the token, a wrong pair
is rejected with the store untouched. -/
theorem login_token_issue_and_reject_witness :
    (loginHandler "admin" "f5password" 0 "TOK" demoLoginBody initState).1.isOk = true ∧
    alistGet (loginHandler "admin" "f5password" 0 "TOK" demoLoginBody initState).2.tokens "TOK"
      = some ⟨JVal.str "admin", 0 + 1200 * 1000000, 0⟩ ∧
    loginHandler "admin" "f5password" 0 "TOK"
        [("username", JVal.str "x"), ("password", JVal.str "y")] initState
      = (.error ⟨401, "Authentication failed"⟩, initState) := by
  have h := login_token_issue_and_reject "admin" "f5password" 0 "TOK" demoLoginBody initState
    (JVal.str "admin") (JVal.str "f5password") (by decide) (by decide) (by decide)
  have h2 := login_token_issue_and_reject "admin" "f5password" 0 "TOK"
    [("username", JVal.str "x"), ("password", JVal.str "y")] initState
    (JVal.str "x") (JVal.str "y") (by decide) (by decide) (by decide)
  have hsucc := h.1 ⟨rfl, rfl⟩
  exact ⟨hsucc.1, hsucc.2.2.1, h2.2 (by decide)⟩

/-- Claim C2: a stored token whose expiration timestamp is strictly below
the current time is lazily evicted: presenting it to
`authenticate_user_or_token` deletes the record and fails 401
`Token expired` (other token entries untouched); afterwards the same
token value is absent — a second authentication attempt fails 401
`Invalid token` with the store unchanged (idempotent eviction), and
`get_token_info` fails 404 `Token not found`. -/
theorem expired_token_lazy_eviction (cfgU cfgP basicU basicP : String) (now : Nat)
    (tok : String) (s : F5State) (info : TokenRec)
    (hstored : alistGet s.tokens tok = some info)
    (hexp : info.expiration < now) :
    (authUserOrToken cfgU cfgP now (some tok) basicU basicP s).1
      = .error ⟨401, "Token expired"⟩ ∧
    alistGet (authUserOrToken cfgU cfgP now (some tok) basicU basicP s).2.tokens tok
      = none ∧
    (∀ t, t ≠ tok →
      alistGet (authUserOrToken cfgU cfgP now (some tok) basicU basicP s).2.tokens t
        = alistGet s.tokens t) ∧
    (∀ (cu cp bu bp : String) (now2 : Nat),
      authUserOrToken cu cp now2 (some tok) bu bp
          (authUserOrToken cfgU cfgP now (some tok) basicU basicP s).2
        = (.error ⟨401, "Invalid token"⟩,
           (authUserOrToken cfgU cfgP now (some tok) basicU basicP s).2)) ∧
    (∀ now3 : Nat,
      getTokenInfoHandler now3 tok
          (authUserOrToken cfgU cfgP now (some tok) basicU basicP s).2
        = (.error ⟨404, "Token not found"⟩,
           (authUserOrToken cfgU cfgP now (some tok) basicU basicP s).2)) := by
  have hrun : authUserOrToken cfgU cfgP now (some tok) basicU basicP s
      = (.error ⟨401, "Token expired"⟩, { s with tokens := alistDel s.tokens tok }) := by
    simp [authUserOrToken, hstored, hexp]
  rw [hrun]
  refine ⟨rfl, alistGet_alistDel_self s.tokens tok, ?_, ?_, ?_⟩
  · intro t ht
    exact alistGet_alistDel_ne s.tokens tok t ht
  · intro cu cp bu bp now2
    simp [authUserOrToken, alistGet_alistDel_self]
  · intro now3
    simp [getTokenInfoHandler, alistGet_alistDel_self]

/-- Claim C2 witness: the token issued at time 0 expires at
1,200,000,000 µs; at 1,200,000,001 µs it is evicted and then absent. -/
theorem expired_token_lazy_eviction_witness :
    (authUserOrToken "admin" "f5password" 1200000001 (some "TOK") "" "" demoTokState).1
      = .error ⟨401, "Token expired"⟩ ∧
    alistGet (authUserOrToken "admin" "f5password" 1200000001 (some "TOK") "" ""
        demoTokState).2.tokens "TOK" = none ∧
    authUserOrToken "a" "b" 7 (some "TOK") "c" "d"
        (authUserOrToken "admin" "f5password" 1200000001 (some "TOK") "" "" demoTokState).2
      = (.error ⟨401, "Invalid token"⟩,
         (authUserOrToken "admin" "f5password" 1200000001 (some "TOK") "" "" demoTokState).2) ∧
    getTokenInfoHandler 9 "TOK"
        (authUserOrToken "admin" "f5password" 1200000001 (some "TOK") "" "" demoTokState).2
      = (.error ⟨404, "Token not found"⟩,
         (authUserOrToken "admin" "f5password" 1200000001 (some "TOK") "" "" demoTokState).2) := by
  have h := expired_token_lazy_eviction "admin" "f5password" "" "" 1200000001 "TOK"
    demoTokState ⟨JVal.str "admin", 0 + 1200 * 1000000, 0⟩ (by decide) (by decide)
  exact ⟨h.1, h.2.1, h.2.2.2.1 "a" "b" "c" "d" 7, h.2.2.2.2 9⟩

/-- Claim C5 (amended): pool creation fails with a 400 `MissingField`
error iff the body is empty or the derived name is not truthy, where
the derived name is the `name` value when that key is present, else
the last slash-segment of a present `fullPath`, else the value of the
`name or fullPath or partition` falsy-fallback chain (so a body with
only a truthy `partition` field *does* create a pool, named after the
partition value); on success the stored record's name is the derived
name and its partition is `tmPartition` or `partition` or `"Common"`
— never derived from `fullPath`. -/
theorem create_pool_name_requirement :
    (∀ s : F5State, createPoolHandler [] s = (.error ⟨400, "empty body"⟩, s)) ∧
    (∀ (body : Obj) (s : F5State) (nm : JVal), body ≠ [] →
      derivePoolName body = .ok nm → truthy nm = false →
      createPoolHandler body s = (.error ⟨400, "missing name"⟩, s)) ∧
    (∀ (body : Obj) (s : F5State) (nm : JVal), body ≠ [] →
      derivePoolName body = .ok nm → truthy nm = true →
      (createPoolHandler body s).1.isOk = true ∧
      (alistGet (createPoolHandler body s).2.pools (derivePoolPartition body, nm)).isSome
        = true ∧
      (alistGet (createPoolHandler body s).2.pools (derivePoolPartition body, nm)).bind
        (fun pool => alistGet pool "name") = some nm ∧
      (alistGet (createPoolHandler body s).2.pools (derivePoolPartition body, nm)).bind
        (fun pool => alistGet pool "tmPartition")
        = some (derivePoolPartition body)) := by
  refine ⟨?_, ?_, ?_⟩
  · intro s
    rfl
  · intro body s nm hne hnm htr
    simp [createPoolHandler, hne, hnm, htr]
  · intro body s nm hne hnm htr
    refine ⟨?_, ?_, ?_, ?_⟩
    · simp [createPoolHandler, hne, hnm, htr, Except.isOk, Except.toBool]
    · simp [createPoolHandler, hne, hnm, htr, alistGet_alistSet]
    · simp [createPoolHandler, hne, hnm, htr, alistGet_alistSet, alistGet]
    · simp [createPoolHandler, hne, hnm, htr, alistGet_alistSet, alistGet]

/-- Claim C5 counterexample: a body containing only a `partition` field
does not fail `MissingField` — it creates a pool named after the
partition value, stored under key `(P, P)`; and a body containing only
`fullPath = "/Prt/p1"` stores its pool under partition `"Common"`, not
under the first `fullPath` segment. -/
theorem create_pool_partition_only_cex :
    (createPoolHandler [("partition", JVal.str "P")] initState).1
      ≠ .error ⟨400, "missing name"⟩ ∧
    (createPoolHandler [("partition", JVal.str "P")] initState).1
      ≠ .error ⟨400, "empty body"⟩ ∧
    (alistGet (createPoolHandler [("partition", JVal.str "P")] initState).2.pools
      (JVal.str "P", JVal.str "P")).isSome = true ∧
    (alistGet (createPoolHandler [("fullPath", JVal.str "/Prt/p1")] initState).2.pools
      (JVal.str "Common", JVal.str "p1")).isSome = true ∧
    alistGet (createPoolHandler [("fullPath", JVal.str "/Prt/p1")] initState).2.pools
      (JVal.str "Prt", JVal.str "p1") = none :=
  ⟨by decide, by decide, by decide, by decide, by decide⟩

/-- Claim C5 witness: an empty `name` value fails with `missing name`;
`demoPoolBody` succeeds. -/
theorem create_pool_name_requirement_witness :
    createPoolHandler [("name", JVal.str "")] initState
      = (.error ⟨400, "missing name"⟩, initState) ∧
    (createPoolHandler demoPoolBody initState).1.isOk = true := by
  have hb := create_pool_name_requirement.2.1 [("name", JVal.str "")] initState
    (JVal.str "") (by decide) (by decide) (by decide)
  have hc := create_pool_name_requirement.2.2 demoPoolBody initState
    (JVal.str "p1") (by decide) (by decide) (by decide)
  exact ⟨hb, hc.1⟩

/-- Claim C6 (amended): after a successful pool create for key
`(partition, name)`, the member collection is the empty one when the
key was absent from the member store, but a create that overwrites an
existing pool leaves the existing member collection unchanged, members
intact (`setdefault` semantics); other keys are untouched. -/
theorem create_pool_member_collection (body : Obj) (s : F5State) (nm : JVal)
    (hne : body ≠ []) (hnm : derivePoolName body = .ok nm) (htr : truthy nm = true) :
    (alistGet s.poolMembers (derivePoolPartition body, nm) = none →
      alistGet (createPoolHandler body s).2.poolMembers (derivePoolPartition body, nm)
        = some []) ∧
    (∀ ms, alistGet s.poolMembers (derivePoolPartition body, nm) = some ms →
      alistGet (createPoolHandler body s).2.poolMembers (derivePoolPartition body, nm)
        = some ms) ∧
    (∀ k, k ≠ (derivePoolPartition body, nm) →
      alistGet (createPoolHandler body s).2.poolMembers k = alistGet s.poolMembers k) := by
  have hpm : (createPoolHandler body s).2.poolMembers
      = (if (alistGet s.poolMembers (derivePoolPartition body, nm)).isSome
         then s.poolMembers
         else alistSet s.poolMembers (derivePoolPartition body, nm) []) := by
    simp [createPoolHandler, hne, hnm, htr]
  refine ⟨?_, ?_, ?_⟩
  · intro h
    rw [hpm, h]
    simp [alistGet_alistSet]
  · intro ms h
    rw [hpm, h]
    simpa using h
  · intro k hk
    rw [hpm]
    by_cases h : (alistGet s.poolMembers (derivePoolPartition body, nm)).isSome
    · rw [if_pos h]
    · rw [if_neg h, alistGet_alistSet, if_neg hk]

/-- Claim C6 counterexample: create pool `p1`, add member `m1`, then
re-create pool `p1` over the same key — the create succeeds but the
member collection is *not* re-initialized, and listing the members
immediately after the create returns `m1`, not an empty list. -/
theorem recreate_pool_keeps_members_cex :
    (createPoolHandler demoPoolBody demoS2).1.isOk = true ∧
    (listPoolMembersHandler "p1" demoS3).1 = .ok [demoMember] ∧
    (Except.ok [demoMember] : Except ApiErr (List Obj)) ≠ .ok [] :=
  ⟨by decide, by decide, by decide⟩

/-- Claim C6 witness: a fresh create initializes an empty member
collection; a create over `demoS2` keeps member `m1`. -/
theorem create_pool_member_collection_witness :
    alistGet (createPoolHandler demoPoolBody initState).2.poolMembers
      (JVal.str "Common", JVal.str "p1") = some [] ∧
    alistGet (createPoolHandler demoPoolBody demoS2).2.poolMembers
      (JVal.str "Common", JVal.str "p1") = some [(JVal.str "m1", demoMember)] := by
  have h1 := create_pool_member_collection demoPoolBody initState (JVal.str "p1")
    (by decide) (by decide) (by decide)
  have h2 := create_pool_member_collection demoPoolBody demoS2 (JVal.str "p1")
    (by decide) (by decide) (by decide)
  exact ⟨h1.1 (by decide), h2.2.1 [(JVal.str "m1", demoMember)] (by decide)⟩

/-- Claim C7 (amended): deleting an existing pool returns the deletion
message and removes both the pool record and its entire member
collection (other keys untouched); afterwards every member-level
operation on that key fails with a 404 — List, Create and Get report
`pool not found`, while Update and Delete, which never consult the pool
store, report `member not found` — and listing in particular fails
rather than returning an empty list.  Deleting an absent key fails 404
`pool not found` and changes nothing. -/
theorem delete_pool_cascades (rid : String) (s : F5State) (pool : Obj)
    (hp : alistGet s.pools (keyOf rid) = some pool) :
    (deletePoolHandler rid s).1 = .ok [("message", JVal.str "deleted")] ∧
    alistGet (deletePoolHandler rid s).2.pools (keyOf rid) = none ∧
    alistGet (deletePoolHandler rid s).2.poolMembers (keyOf rid) = none ∧
    (∀ k, k ≠ keyOf rid →
      alistGet (deletePoolHandler rid s).2.pools k = alistGet s.pools k ∧
      alistGet (deletePoolHandler rid s).2.poolMembers k = alistGet s.poolMembers k) ∧
    listPoolMembersHandler rid (deletePoolHandler rid s).2
      = (.error ⟨404, "pool not found"⟩, (deletePoolHandler rid s).2) ∧
    (∀ body, createPoolMemberHandler rid body (deletePoolHandler rid s).2
      = (.error ⟨404, "pool not found"⟩, (deletePoolHandler rid s).2)) ∧
    (∀ mid, getPoolMemberHandler rid mid (deletePoolHandler rid s).2
      = (.error ⟨404, "pool not found"⟩, (deletePoolHandler rid s).2)) ∧
    (∀ mid body, updatePoolMemberHandler rid mid body (deletePoolHandler rid s).2
      = (.error ⟨404, "member not found"⟩, (deletePoolHandler rid s).2)) ∧
    (∀ mid, deletePoolMemberHandler rid mid (deletePoolHandler rid s).2
      = (.error ⟨404, "member not found"⟩, (deletePoolHandler rid s).2)) ∧
    (∀ (s' : F5State) (rid' : String), alistGet s'.pools (keyOf rid') = none →
      deletePoolHandler rid' s' = (.error ⟨404, "pool not found"⟩, s')) := by
  have hrun : deletePoolHandler rid s
      = (.ok [("message", JVal.str "deleted")],
         { s with
             pools := alistDel s.pools (keyOf rid),
             poolMembers := alistDel s.poolMembers (keyOf rid) }) := by
    simp [deletePoolHandler, hp]
  rw [hrun]
  refine ⟨rfl, alistGet_alistDel_self _ _, alistGet_alistDel_self _ _,
    ?_, ?_, ?_, ?_, ?_, ?_, ?_⟩
  · intro k hk
    exact ⟨alistGet_alistDel_ne _ _ _ hk, alistGet_alistDel_ne _ _ _ hk⟩
  · simp [listPoolMembersHandler, alistGet_alistDel_self]
  · intro body
    simp [createPoolMemberHandler, alistGet_alistDel_self]
  · intro mid
    simp [getPoolMemberHandler, alistGet_alistDel_self]
  · intro mid body
    simp [updatePoolMemberHandler, alistGet_alistDel_self, alistGet]
  · intro mid
    simp [deletePoolMemberHandler, alistGet_alistDel_self, alistGet]
  · intro s' rid' habs
    simp [deletePoolHandler, habs]

/-- Claim C7 counterexample: after creating pool `p1` with member `m1`
and deleting the pool, a member-level update on that key fails with 404
`member not found`, not with the `pool not found` error the claim
states for every member-level operation. -/
theorem member_update_after_delete_detail_cex :
    (updatePoolMemberHandler "p1" "m1" [("state", JVal.str "user-down")] demoSDel).1
      = .error ⟨404, "member not found"⟩ ∧
    (updatePoolMemberHandler "p1" "m1" [("state", JVal.str "user-down")] demoSDel).1
      ≠ .error ⟨404, "pool not found"⟩ :=
  ⟨by decide, by decide⟩

/-- Claim C7 witness: deleting `p1` from `demoS2` removes pool and
members; listing then reports `pool not found`; deleting from the empty
state reports `pool not found` and changes nothing. -/
theorem delete_pool_cascades_witness :
    (deletePoolHandler "p1" demoS2).1 = .ok [("message", JVal.str "deleted")] ∧
    alistGet (deletePoolHandler "p1" demoS2).2.pools (keyOf "p1") = none ∧
    alistGet (deletePoolHandler "p1" demoS2).2.poolMembers (keyOf "p1") = none ∧
    listPoolMembersHandler "p1" (deletePoolHandler "p1" demoS2).2
      = (.error ⟨404, "pool not found"⟩, (deletePoolHandler "p1" demoS2).2) ∧
    deletePoolHandler "p1" initState = (.error ⟨404, "pool not found"⟩, initState) := by
  have h := delete_pool_cascades "p1" demoS2 demoPool (by decide)
  exact ⟨h.1, h.2.1, h.2.2.1, h.2.2.2.2.1, h.2.2.2.2.2.2.2.2.2 initState "p1" (by decide)⟩

/-- Claim C9 (amended): with the parent pool key absent from the pool
store, member-level List, Create and Get check the pool first and fail
404 `pool not found` before any member-level logic, leaving the state
unchanged; Update and Delete never consult the pool store — when the
member collection for the key is also absent (as it is in every
reachable state without the pool), they fail 404 `member not found`
with the state unchanged. -/
theorem member_ops_parent_pool_check (rid : String) (s : F5State)
    (habs : alistGet s.pools (keyOf rid) = none) :
    listPoolMembersHandler rid s = (.error ⟨404, "pool not found"⟩, s) ∧
    (∀ body, createPoolMemberHandler rid body s
      = (.error ⟨404, "pool not found"⟩, s)) ∧
    (∀ mid, getPoolMemberHandler rid mid s
      = (.error ⟨404, "pool not found"⟩, s)) ∧
    (alistGet s.poolMembers (keyOf rid) = none →
      (∀ mid body, updatePoolMemberHandler rid mid body s
        = (.error ⟨404, "member not found"⟩, s)) ∧
      (∀ mid, deletePoolMemberHandler rid mid s
        = (.error ⟨404, "member not found"⟩, s))) := by
  refine ⟨?_, ?_, ?_, ?_⟩
  · simp [listPoolMembersHandler, habs]
  · intro body
    simp [createPoolMemberHandler, habs]
  · intro mid
    simp [getPoolMemberHandler, habs]
  · intro hm
    constructor
    · intro mid body
      simp [updatePoolMemberHandler, hm, alistGet]
    · intro mid
      simp [deletePoolMemberHandler, hm, alistGet]

/-- Claim C9 counterexample: updating a member of the never-created pool
`px` fails with 404 `member not found` — the parent-pool check the
claim states for every member operation does not happen for Update. -/
theorem member_update_absent_pool_detail_cex :
    updatePoolMemberHandler "px" "m1" [("state", JVal.str "user-down")] initState
      = (.error ⟨404, "member not found"⟩, initState) ∧
    (updatePoolMemberHandler "px" "m1" [("state", JVal.str "user-down")] initState).1
      ≠ .error ⟨404, "pool not found"⟩ :=
  ⟨by decide, by decide⟩

/-- Claim C9 witness: the five member operations against the empty
state. -/
theorem member_ops_parent_pool_check_witness :
    listPoolMembersHandler "px" initState = (.error ⟨404, "pool not found"⟩, initState) ∧
    createPoolMemberHandler "px" demoMemberBody initState
      = (.error ⟨404, "pool not found"⟩, initState) ∧
    getPoolMemberHandler "px" "m1" initState
      = (.error ⟨404, "pool not found"⟩, initState) ∧
    deletePoolMemberHandler "px" "m1" initState
      = (.error ⟨404, "member not found"⟩, initState) := by
  have h := member_ops_parent_pool_check "px" initState (by decide)
  exact ⟨h.1, h.2.1 demoMemberBody, h.2.2.1 "m1", (h.2.2.2 (by decide)).2 "m1"⟩

/-- Claim C10: no update operation changes the key under which a record
is stored: updating a pool, pool member or virtual server with any
patch — including one writing `name`, `tmPartition` or `partition`
fields — stores the shallow-merged record at exactly its original
(partition, name) or member-name key and leaves every other key
unchanged, so a stored record's name fields can diverge from its
storage key. -/
theorem update_preserves_storage_key :
    (∀ (rid : String) (body : Obj) (s : F5State) (pool : Obj),
      alistGet s.pools (keyOf rid) = some pool →
      alistGet (updatePoolHandler rid body s).2.pools (keyOf rid)
        = some (mergePool pool body) ∧
      (∀ k, k ≠ keyOf rid →
        alistGet (updatePoolHandler rid body s).2.pools k = alistGet s.pools k) ∧
      (updatePoolHandler rid body s).2.poolMembers = s.poolMembers ∧
      (updatePoolHandler rid body s).2.virtuals = s.virtuals) ∧
    (∀ (rid mid : String) (body : Obj) (s : F5State)
        (members : List (JVal × Obj)) (m : Obj),
      alistGet s.poolMembers (keyOf rid) = some members →
      alistGet members (JVal.str (parseF5Id mid).2) = some m →
      alistGet (updatePoolMemberHandler rid mid body s).2.poolMembers (keyOf rid)
        = some (alistSet members (JVal.str (parseF5Id mid).2) (mergeMember m body)) ∧
      alistGet (alistSet members (JVal.str (parseF5Id mid).2) (mergeMember m body))
        (JVal.str (parseF5Id mid).2) = some (mergeMember m body) ∧
      (∀ mk, mk ≠ JVal.str (parseF5Id mid).2 →
        alistGet (alistSet members (JVal.str (parseF5Id mid).2) (mergeMember m body)) mk
          = alistGet members mk) ∧
      (∀ k, k ≠ keyOf rid →
        alistGet (updatePoolMemberHandler rid mid body s).2.poolMembers k
          = alistGet s.poolMembers k)) ∧
    (∀ (rid : String) (body : Obj) (s : F5State) (v : Obj),
      alistGet s.virtuals (keyOf rid) = some v →
      alistGet (updateVirtualHandler rid body s).2.virtuals (keyOf rid)
        = some (mergeMember v body) ∧
      (∀ k, k ≠ keyOf rid →
        alistGet (updateVirtualHandler rid body s).2.virtuals k
          = alistGet s.virtuals k)) := by
  refine ⟨?_, ?_, ?_⟩
  · intro rid body s pool hp
    have hrun : (updatePoolHandler rid body s).2
        = { s with pools := alistSet s.pools (keyOf rid) (mergePool pool body) } := by
      simp [updatePoolHandler, hp]
    rw [hrun]
    refine ⟨?_, ?_, rfl, rfl⟩
    · rw [alistGet_alistSet]
      simp
    · intro k hk
      rw [alistGet_alistSet, if_neg hk]
  · intro rid mid body s members m hm hmem
    have hrun : (updatePoolMemberHandler rid mid body s).2
        = { s with poolMembers := (alistSet s.poolMembers (keyOf rid)
              (alistSet members (JVal.str (parseF5Id mid).2) (mergeMember m body))) } := by
      simp [updatePoolMemberHandler, hm, hmem]
    rw [hrun]
    refine ⟨?_, ?_, ?_, ?_⟩
    · rw [alistGet_alistSet]
      simp
    · rw [alistGet_alistSet]
      simp
    · intro mk hmk
      rw [alistGet_alistSet, if_neg hmk]
    · intro k hk
      rw [alistGet_alistSet, if_neg hk]
  · intro rid body s v hv
    have hrun : (updateVirtualHandler rid body s).2
        = { s with virtuals := alistSet s.virtuals (keyOf rid) (mergeMember v body) } := by
      simp [updateVirtualHandler, hv]
    rw [hrun]
    refine ⟨?_, ?_⟩
    · rw [alistGet_alistSet]
      simp
    · intro k hk
      rw [alistGet_alistSet, if_neg hk]

/-- Claim C10 witness: renaming pool `p1`, member `m1` and (re)labelling
virtual `v1` leave each record under its original key; the patched
pool is not reachable under its new name. -/
theorem update_preserves_storage_key_witness :
    alistGet (updatePoolHandler "p1" [("name", JVal.str "renamed")] demoS1).2.pools
      (keyOf "p1") = some (mergePool demoPool [("name", JVal.str "renamed")]) ∧
    alistGet (updatePoolHandler "p1" [("name", JVal.str "renamed")] demoS1).2.pools
      (JVal.str "Common", JVal.str "renamed") = none ∧
    alistGet (updatePoolMemberHandler "p1" "m1" [("name", JVal.str "m2")]
        demoS2).2.poolMembers (keyOf "p1")
      = some (alistSet [(JVal.str "m1", demoMember)] (JVal.str "m1")
          (mergeMember demoMember [("name", JVal.str "m2")])) ∧
    alistGet (updateVirtualHandler "v1" [("partition", JVal.str "Other")]
        demoSV).2.virtuals (keyOf "v1")
      = some (mergeMember demoVirtual [("partition", JVal.str "Other")]) := by
  have hp := update_preserves_storage_key.1 "p1" [("name", JVal.str "renamed")]
    demoS1 demoPool (by decide)
  have hm := update_preserves_storage_key.2.1 "p1" "m1" [("name", JVal.str "m2")]
    demoS2 [(JVal.str "m1", demoMember)] demoMember (by decide) (by decide)
  have hv := update_preserves_storage_key.2.2 "v1" [("partition", JVal.str "Other")]
    demoSV demoVirtual (by decide)
  refine ⟨hp.1, ?_, hm.1, hv.1⟩
  have hfr := hp.2.1 (JVal.str "Common", JVal.str "renamed") (by decide)
  rw [hfr]
  decide
